import Mathlib

/-!
Verification of the Femap type-library generators
(`generate_stubs_tlb.py` and `generate_constants_tlb.py`).

The Python values handled by the resolver are dynamically typed:
`None`, `int`, or (possibly nested) tuples.  We embed them as `PyVal`,
encoding a tuple as a cons chain (`pnil` is the empty tuple, `pcons hd tl`
is a tuple whose first component is `hd` and whose remaining components
form the tuple `tl`).  This keeps every recursion structural, so all
definitions reduce in the kernel.
-/

inductive PyVal : Type where
  | pnone : PyVal
  | pint (n : Int) : PyVal
  | pnil : PyVal
  | pcons (hd tl : PyVal) : PyVal
deriving DecidableEq

/-- The metadata host's reference-resolution capability:
`GetRefTypeInfo(href).GetDocumentation(-1)[0]`, with `none` standing for a
raised exception ("lookup failure"). -/
def TInfo : Type := Int → Option String

/-- `VT_NAMES.get(vt, 'Any')` from `generate_stubs_tlb.py` lines 24-48:
the fixed primitive-code table with default `'Any'`. -/
def vtNameD (n : Int) : String :=
  if n = 0 then "None"
  else if n = 2 then "int"
  else if n = 3 then "int"
  else if n = 4 then "float"
  else if n = 5 then "float"
  else if n = 6 then "float"
  else if n = 7 then "float"
  else if n = 8 then "str"
  else if n = 9 then "Any"
  else if n = 10 then "int"
  else if n = 11 then "bool"
  else if n = 12 then "Any"
  else if n = 13 then "Any"
  else if n = 16 then "int"
  else if n = 17 then "int"
  else if n = 18 then "int"
  else if n = 19 then "int"
  else if n = 20 then "int"
  else if n = 21 then "int"
  else if n = 22 then "int"
  else if n = 23 then "int"
  else if n = 24 then "None"
  else if n = 25 then "int"
  else "Any"

/-- `resolve_type(tinfo, typedesc)` from `generate_stubs_tlb.py` lines 94-156.
`t` models the host lookup used in the `VT_USERDEFINED` (29) branch; a
non-integer handle or a failed lookup yields `'int'` exactly as the
`try/except` in the source does.  `typedesc[1]` exists precisely when the
tuple has a second component, i.e. when the tail is a `pcons`. -/
def resolve_type (t : TInfo) : PyVal → String
  | .pnone => "Any"
  | .pint n => vtNameD n
  | .pnil => "Any"
  | .pcons v rest =>
    match v with
    | .pnil => "Any"
    | .pcons a b => resolve_type t (.pcons a b)
    | .pnone => "Any"
    | .pint vt =>
      if vt = 26 then
        -- VT_PTR: inner = typedesc[1] if len > 1 else None; resolve(None) = 'Any'
        match rest with
        | .pcons x _ => resolve_type t x
        | _ => "Any"
      else if vt = 27 then
        -- VT_SAFEARRAY
        match rest with
        | .pcons x _ =>
          match x with
          | .pnone => "Tuple[Any, ...]"
          | .pint m => "Tuple[" ++ resolve_type t (.pint m) ++ ", ...]"
          | .pnil => "Tuple[" ++ resolve_type t .pnil ++ ", ...]"
          | .pcons a b => "Tuple[" ++ resolve_type t (.pcons a b) ++ ", ...]"
        | _ => "Tuple[Any, ...]"
      else if vt = 29 then
        -- VT_USERDEFINED: href = typedesc[1] if len > 1 else None
        match rest with
        | .pcons (.pint h) _ => (t h).getD "int"
        | _ => "int"
      else vtNameD vt

/-- Note: an empty tuple as first component (`v = .pnil`) recurses in the
source (`resolve_type(tinfo, vt)` with `vt = ()`), which returns `'Any'`
via the `len(typedesc) == 0` branch; we inline that result above. -/
theorem resolve_type_empty_tuple_head (t : TInfo) (rest : PyVal) :
    resolve_type t (.pcons .pnil rest) = resolve_type t .pnil := rfl

/-- `get_elemdesc_type(tinfo, elemdesc)` from `generate_stubs_tlb.py`
lines 159-186.  Output detection: tuple of length ≥ 2 whose second
component is an int with bit `0x2` set. -/
def get_elemdesc_type (t : TInfo) (e : PyVal) : String × Bool :=
  match e with
  | .pcons hd tl =>
    let isOut : Bool :=
      match tl with
      | .pcons (.pint f) _ => decide (Int.land f 2 ≠ 0)
      | _ => false
    (resolve_type t (.pcons hd tl), isOut)
  | _ => ("Any", false)

example : resolve_type (fun _ => Option.none) (.pint 3) = "int" := by decide
example :
    resolve_type (fun _ => Option.none)
      (.pcons (.pint 26) (.pcons (.pint 12) .pnil)) = "Any" := by decide
example :
    resolve_type (fun h => if h = 7 then some "IMatl" else Option.none)
      (.pcons (.pint 29) (.pcons (.pint 7) .pnil)) = "IMatl" := by decide
example :
    get_elemdesc_type (fun _ => Option.none)
      (.pcons (.pint 3) (.pcons (.pint 3) (.pcons .pnone .pnil))) = ("int", true) := by
  decide

/-!
## Interface extraction (`extract_interface_info`, lines 204-366)

Parameters are stored exactly as the source stores them: plain methods
keep `(name, type, is_optional)` 3-tuples, indexed-property accessors
keep `(name, type)` 2-tuples.
-/

inductive PyParam : Type where
  | p2 (name ty : String) : PyParam
  | p3 (name ty : String) (opt : Bool) : PyParam
deriving DecidableEq

structure MethodInfo where
  name : String
  params : List PyParam
  return_type : String
deriving DecidableEq

structure PropInfo where
  name : String
  type : String
  has_setter : Bool
deriving DecidableEq

structure IfaceInfo where
  name : String
  properties : List PropInfo
  methods : List MethodInfo
deriving DecidableEq

/-- One successfully read FUNCDESC: `GetNames(memid)` (function name then
parameter names), the invocation kind, the argument ELEMDESCs, and the
return-type descriptor.  Entries whose reads raised are simply absent. -/
structure FuncDesc where
  names : List String
  invkind : Int
  args : List PyVal
  rettype : PyVal
deriving DecidableEq

/-- Python dict assignment `m[k] = v` on an insertion-ordered dict:
overwrite in place if present, else append. -/
def dictSet {α : Type} (m : List (String × α)) (k : String) (v : α) :
    List (String × α) :=
  match m with
  | [] => [(k, v)]
  | (k', v') :: rest => if k' = k then (k, v) :: rest else (k', v') :: dictSet rest k v

/-- `func_names[k + 1] if k + 1 < len(func_names) else f'arg{k}'` -/
def paramNameAt (names : List String) (k : Nat) : String :=
  names.getD (k + 1) ("arg" ++ toString k)

/-- The parameter loop of the plain-method branch (lines 309-320):
builds the parameter list and the output-type list in declaration order. -/
def buildParams (t : TInfo) (names : List String) :
    List PyVal → Nat → List PyParam × List String
  | [], _ => ([], [])
  | a :: rest, k =>
    let r := get_elemdesc_type t a
    let pn := paramNameAt names k
    let next := buildParams t names rest (k + 1)
    if r.2 then (.p3 pn r.1 true :: next.1, r.1 :: next.2)
    else (.p3 pn r.1 false :: next.1, next.2)

/-- The plain-method branch (lines 304-333). -/
def mkFuncMethod (t : TInfo) (names : List String) (funcName : String)
    (args : List PyVal) (ret : PyVal) : MethodInfo :=
  let ret_type := resolve_type t ret
  let pr := buildParams t names args 0
  let final_ret :=
    if pr.2 = [] then ret_type
    else "Tuple[" ++ String.intercalate ", " (ret_type :: pr.2) ++ "]"
  { name := funcName, params := pr.1, return_type := final_ret }

/-- The indexed-property parameter loops (lines 255-259 and 281-284):
`is_output` is ignored, 2-tuples are stored. -/
def mkIndexedParams (t : TInfo) (names : List String) :
    List PyVal → Nat → List PyParam
  | [], _ => []
  | a :: rest, k =>
    .p2 (paramNameAt names k) (get_elemdesc_type t a).1 ::
      mkIndexedParams t names rest (k + 1)

structure IndexedInfo where
  getter_params : Option (List PyParam)
  setter_params : Option (List PyParam)
  type : String
deriving DecidableEq

structure ExtractState where
  properties : List (String × String × Bool)
  methods : List MethodInfo
  indexed : List (String × IndexedInfo)
deriving DecidableEq

/-- One iteration of the function-scanning loop (lines 232-333). -/
def processFunc (t : TInfo) (st : ExtractState) (f : FuncDesc) : ExtractState :=
  match f.names with
  | [] => st
  | func_name :: _ =>
    if f.invkind = 2 then
      -- INVOKE_PROPERTYGET
      let ret_type := resolve_type t f.rettype
      if f.args ≠ [] then
        let params := mkIndexedParams t f.names f.args 0
        let indexed' :=
          match List.lookup func_name st.indexed with
          | none => st.indexed ++ [(func_name, ⟨some params, none, ret_type⟩)]
          | some info => dictSet st.indexed func_name ⟨some params, info.setter_params, ret_type⟩
        { st with indexed := indexed' }
      else
        let properties' :=
          match List.lookup func_name st.properties with
          | none => st.properties ++ [(func_name, (ret_type, false))]
          | some pv => dictSet st.properties func_name (ret_type, pv.2)
        { st with properties := properties' }
    else if f.invkind = 4 ∨ f.invkind = 8 then
      -- INVOKE_PROPERTYPUT / INVOKE_PROPERTYPUTREF
      if f.args.length > 1 then
        let params := mkIndexedParams t f.names f.args 0
        let indexed' :=
          match List.lookup func_name st.indexed with
          | none => st.indexed ++ [(func_name, ⟨none, some params, "Any"⟩)]
          | some info => dictSet st.indexed func_name ⟨info.getter_params, some params, info.type⟩
        { st with indexed := indexed' }
      else
        match List.lookup func_name st.properties with
        | some pv => { st with properties := dictSet st.properties func_name (pv.1, true) }
        | none =>
          if f.args ≠ [] then
            let r := get_elemdesc_type t (f.args.getLastD .pnone)
            { st with properties := st.properties ++ [(func_name, (r.1, true))] }
          else
            { st with properties := st.properties ++ [(func_name, ("Any", true))] }
    else
      -- regular method
      { st with methods := st.methods ++ [mkFuncMethod t f.names func_name f.args f.rettype] }

/-- Conversion of one IndexedPropertyDescriptor to accessor methods
(lines 336-351): reader named after the property, writer named `Set<name>`. -/
def indexedMethods (pn : String) (info : IndexedInfo) : List MethodInfo :=
  (match info.getter_params with
   | some ps => [{ name := pn, params := ps, return_type := info.type }]
   | none => []) ++
  (match info.setter_params with
   | some ps => [{ name := "Set" ++ pn, params := ps, return_type := "None" }]
   | none => [])

/-- `extract_interface_info` (lines 204-366) for an entry already known to
be a DISPATCH interface, with `vars` the successfully read VARDESCs and
`funcs` the successfully read FUNCDESCs. -/
def extract_interface_info (t : TInfo) (ifaceName : String)
    (vars : List (String × PyVal)) (funcs : List FuncDesc) : IfaceInfo :=
  let props0 := vars.foldl (fun ps v => dictSet ps v.1 (resolve_type t v.2, true)) []
  let st := funcs.foldl (processFunc t) ⟨props0, [], []⟩
  { name := ifaceName,
    properties := st.properties.map (fun e => ⟨e.1, e.2.1, e.2.2⟩),
    methods := st.methods ++ st.indexed.foldl (fun acc e => acc ++ indexedMethods e.1 e.2) [] }

/-- The "normal parameter list" of an extracted method: the parameters that
remain required inputs (a 3-tuple parameter not flagged optional; indexed
2-tuple parameters are never optional). -/
def normalParams (m : MethodInfo) : List PyParam :=
  m.params.filter (fun p =>
    match p with
    | .p3 _ _ opt => !opt
    | .p2 _ _ => true)

/-- Whether a stored parameter is a required (normal) input. -/
def isNormalParam (p : PyParam) : Bool :=
  match p with
  | .p3 _ _ opt => !opt
  | .p2 _ _ => true

theorem buildParams_spec (t : TInfo) (names : List String) :
    ∀ (args : List PyVal) (k : Nat),
      ((buildParams t names args k).1.filter isNormalParam =
        ((List.enumFrom k args).filter
          (fun ia => !(get_elemdesc_type t ia.2).2)).map
          (fun ia =>
            PyParam.p3 (paramNameAt names ia.1) (get_elemdesc_type t ia.2).1 false)) ∧
      (buildParams t names args k).2 =
        (args.filter (fun a => (get_elemdesc_type t a).2)).map
          (fun a => (get_elemdesc_type t a).1)
  | [], _ => ⟨rfl, rfl⟩
  | a :: rest, k => by
    have ih := buildParams_spec t names rest (k + 1)
    by_cases h : (get_elemdesc_type t a).2 <;>
      simp [buildParams, List.enumFrom, List.filter_cons, h, ih.1, ih.2, isNormalParam]

/-- C1: for a plain method (invocation kind FUNC), every output-flagged
parameter (flag bit 0x2) is excluded from the normal (required) parameter
list — the normal parameters are exactly the non-output parameters in
declaration order — and the resolved types of the output parameters are
appended, in declaration order, to a composite `Tuple[...]` return type
whose first component is the declared return type; with no output
parameters the declared return type is kept as is. -/
theorem func_output_params_shape (t : TInfo) (names : List String)
    (fn : String) (args : List PyVal) (ret : PyVal) :
    normalParams (mkFuncMethod t names fn args ret) =
      ((List.enumFrom 0 args).filter
        (fun ia => !(get_elemdesc_type t ia.2).2)).map
        (fun ia =>
          PyParam.p3 (paramNameAt names ia.1) (get_elemdesc_type t ia.2).1 false) ∧
    (mkFuncMethod t names fn args ret).return_type =
      (if args.filter (fun a => (get_elemdesc_type t a).2) = [] then
        resolve_type t ret
      else
        "Tuple[" ++ String.intercalate ", "
          (resolve_type t ret ::
            (args.filter (fun a => (get_elemdesc_type t a).2)).map
              (fun a => (get_elemdesc_type t a).1)) ++ "]") := by
  have h := buildParams_spec t names args 0
  constructor
  · simpa [normalParams, mkFuncMethod] using h.1
  · simp only [mkFuncMethod, h.2]
    by_cases hf : args.filter (fun a => (get_elemdesc_type t a).2) = [] <;>
      simp [hf]

/-- C7: pointer semantics are erased (`resolve(pointer(X)) = resolve(X)`),
and an array-of-X descriptor resolves to the homogeneous sequence type
wrapping `resolve(X)`; both for an arbitrary descriptor `X` and arbitrary
trailing tuple components. -/
theorem resolve_pointer_array (t : TInfo) (X r : PyVal) :
    resolve_type t (.pcons (.pint 26) (.pcons X r)) = resolve_type t X ∧
    resolve_type t (.pcons (.pint 27) (.pcons X r)) =
      "Tuple[" ++ resolve_type t X ++ ", ...]" := by
  constructor
  · cases X <;> rfl
  · cases X <;> rfl

/-- C5: an interface whose scanned functions are a property-get with index
parameters (`gargs ≠ []`) and a property-put of the same name with the
index parameters plus a value parameter (`sargs.length > 1`) yields exactly
two callable declarations — a reader named after the property and a writer
named `Set<Property>` — and no plain attribute for that name. -/
theorem indexed_property_pair (t : TInfo) (P : String)
    (gnames snames : List String) (gargs sargs : List PyVal) (gret sret : PyVal)
    (hg : gargs ≠ []) (hs : sargs.length > 1) :
    (extract_interface_info t "I" []
        [⟨P :: gnames, 2, gargs, gret⟩, ⟨P :: snames, 4, sargs, sret⟩]).methods =
      [⟨P, mkIndexedParams t (P :: gnames) gargs 0, resolve_type t gret⟩,
       ⟨"Set" ++ P, mkIndexedParams t (P :: snames) sargs 0, "None"⟩] ∧
    (extract_interface_info t "I" []
        [⟨P :: gnames, 2, gargs, gret⟩, ⟨P :: snames, 4, sargs, sret⟩]).properties = [] := by
  constructor <;>
    simp [extract_interface_info, processFunc, hg, hs, List.lookup, dictSet,
      indexedMethods]

/-- A host lookup with no entries, for concrete instances. -/
def tinfo0 : TInfo := fun _ => Option.none

/-- A concrete input ELEMDESC `(3, 1, None)`: VT_I4 with PARAMFLAG_FIN. -/
def exEd : PyVal := .pcons (.pint 3) (.pcons (.pint 1) (.pcons .pnone .pnil))

theorem indexed_property_pair_witness :
    (([exEd] : List PyVal) ≠ [] ∧ ([exEd, exEd] : List PyVal).length > 1) ∧
    ((extract_interface_info tinfo0 "I" []
        [⟨["Item", "index"], 2, [exEd], .pint 3⟩,
         ⟨["Item", "index", "value"], 4, [exEd, exEd], .pnone⟩]).methods =
      [⟨"Item", mkIndexedParams tinfo0 ["Item", "index"] [exEd] 0,
          resolve_type tinfo0 (.pint 3)⟩,
       ⟨"Set" ++ "Item", mkIndexedParams tinfo0 ["Item", "index", "value"]
          [exEd, exEd] 0, "None"⟩] ∧
     (extract_interface_info tinfo0 "I" []
        [⟨["Item", "index"], 2, [exEd], .pint 3⟩,
         ⟨["Item", "index", "value"], 4, [exEd, exEd], .pnone⟩]).properties = []) :=
  ⟨⟨by decide, by decide⟩,
   indexed_property_pair tinfo0 "Item" ["index"] ["index", "value"]
     [exEd] [exEd, exEd] (.pint 3) .pnone (by decide) (by decide)⟩

/-!
## Alias configuration and type translation

`ALIAS_CONFIG` (`generate_constants_tlb.py` lines 40-173) in declaration
order: (enum key, alias class name, prefix to strip, use nested grouping).
A key containing `:` is a virtual entry filtering the base enum by a name
prefix.
-/

def ALIAS_CONFIG : List (String × String × String × Bool) :=
  [("zReturnCode", "ReturnCode", "FE_", false),
   ("zMessageColor", "Message", "FCM_", false),
   ("zDataType", "Entity", "FT_", false),
   ("zElementType", "ElemType", "FET_", false),
   ("zTopologyType", "Topo", "FTO_", false),
   ("zMaterialType", "MatlType", "FMT_", false),
   ("zNodeType", "NodeType", "FNT_", false),
   ("zAnalysisType", "Analysis", "FAT_", false),
   ("zAnalysisProgram", "Solver", "FAP_", false),
   ("zCSysType", "CSys", "FCS_", false),
   ("zGroupBooleanOp", "GroupOp", "FGB_", false),
   ("zGroupDataType", "GroupType", "FGR_", false),
   ("zGroupDefinitionType", "GroupDef", "FGD_", true),
   ("zColor", "Color", "FCL_", false),
   ("zColor:FPF_", "BrushPattern", "FPF_", false),
   ("zColor:FPL_", "PenLineStyle", "FPL_", false),
   ("zViewMode", "ViewMode", "FVM_", false),
   ("zViewOptions", "ViewOptions", "FVI_", false),
   ("zLoadType", "LoadType", "FLT_", false),
   ("zLoadDirection", "LoadDir", "FLD_", false),
   ("zLoadVariation", "LoadVar", "FLV_", false),
   ("zResultsLocation", "ResultsLoc", "FRL_", false),
   ("zOutputType", "OutputType", "FOT_", false),
   ("zOutputComplex", "OutputComplex", "FOC_", false),
   ("zFunctionType", "FuncType", "FFT_", false),
   ("zMeshApproach", "MeshApproach", "FMA_", false),
   ("zMesherType", "MesherType", "FME_", false),
   ("zSelectorType", "SelectorType", "FST_", false),
   ("zCurveType", "CurveType", "FCT_", false),
   ("zSurfaceType", "SurfaceType", "FSU_", false),
   ("zPointType", "PointType", "FPT_", false),
   ("zFbdComponent", "FbdComponent", "FFBC_", false),
   ("zFbdContribution", "FbdContrib", "FFBCN_", false),
   ("zFbdDisplayMode", "FbdDisplay", "FFBD_", false),
   ("zConnectionRegionType", "ConnRegion", "FCR_", false),
   ("zConnectionPropType", "ConnProp", "FCP_", false),
   ("zChartStyle", "ChartStyle", "FCS_", false),
   ("zChartSeriesType", "ChartSeries", "FCST_", false),
   ("zLibraryFile", "LibFile", "FLF_", false),
   ("zAlignment", "Align", "FAL_", false),
   ("zFeatureType", "Feature", "FFE_", false),
   ("zOutputDestination", "OutputDest", "FOD_", false),
   ("zCombinedMode", "CombinedMode", "FCBM_", false),
   ("zFbdVecMode", "FbdVecMode", "FBD_", false),
   ("zResultsConvert", "ResultsConvert", "FRC_", false),
   ("zCoordPick", "CoordPick", "FCP_", false),
   ("zAnalysisAssignForm", "AnalysisForm", "FAF_", false),
   ("zOptBoundtype", "OptBound", "FOB_", false),
   ("zVecPlateResult", "VecPlateResult", "FVPR_", false),
   ("zVecPlateType", "VecPlateType", "FVPT_", false),
   ("zVecSolidLamLoc", "VecSolidLoc", "FVSL_", false),
   ("zVecSolidLamResult", "VecSolidResult", "FVSR_", false),
   ("zGFXEdgeFlags", "GfxEdge", "FGFX_", false),
   ("zGFXPointSymbol", "GfxSymbol", "FGFXPS_", false),
   ("zGFXArrowMode", "GfxArrow", "FGFXA_", false),
   ("zVisibilityType", "Visibility", "FVT_", false),
   ("zShapeEvaluator", "ShapeEval", "FSE_", false),
   ("zShapeOrient", "ShapeOrient", "FSO_", false),
   ("zDataConvert", "DataConvert", "FDC_", false),
   ("zChartAxisStyle", "ChartAxis", "FCAS_", false),
   ("zChartNumberFormat", "ChartNumFmt", "FCNF_", false),
   ("zChartMarkerStyle", "ChartMarker", "FCMS_", false),
   ("zChartLegendLocation", "ChartLegend", "FCLL_", false),
   ("zChartTextJustification", "ChartJustify", "FCTJ_", false),
   ("zBeamCalculatorStressComponent", "BeamStress", "FBCSC_", false),
   ("zMptComponent", "MptComponent", "FMPC_", false),
   ("zMptContribution", "MptContrib", "FMPCN_", false)]

/-- Python `s.startswith(pre)`, computed on the character lists so that it
reduces in the kernel. -/
def pyStartsWith (s pre : String) : Bool := pre.data.isPrefixOf s.data

/-- Python `s.strip()` (our inputs only ever carry ASCII whitespace). -/
def pyStrip (l : List Char) : String :=
  String.mk (((l.dropWhile Char.isWhitespace).reverse.dropWhile Char.isWhitespace).reverse)

/-- `enum_key.split(':')[0]`. -/
def baseOfKey (key : String) : String :=
  String.mk (key.data.takeWhile (fun c => c ≠ ':'))

/-- `if base_enum not in map: map[base_enum] = []` then append: create the
key at the end on first sight, append to its list afterwards. -/
def unionAppend (m : List (String × List String)) (k : String) (a : String) :
    List (String × List String) :=
  match m with
  | [] => [(k, [a])]
  | (k', l) :: rest =>
    if k' = k then (k', l ++ [a]) :: rest else (k', l) :: unionAppend rest k a

/-- One iteration of the map-building loop
(`generate_stubs_tlb.py` lines 76-85). -/
def aliasStep (maps : List (String × String) × List (String × List String))
    (e : String × String × String × Bool) :
    List (String × String) × List (String × List String) :=
  if e.1.data.contains ':' then (maps.1, unionAppend maps.2 (baseOfKey e.1) e.2.1)
  else (dictSet maps.1 e.1 e.2.1, maps.2)

def ENUM_ALIAS_MAP : List (String × String) :=
  (ALIAS_CONFIG.foldl aliasStep ([], [])).1

/-- Union map after the second loop (lines 88-91): the primary alias is
inserted at the front of each entry's subset list when present. -/
def ENUM_UNION_MAP : List (String × List String) :=
  (ALIAS_CONFIG.foldl aliasStep ([], [])).2.map (fun e =>
    match List.lookup e.1 ENUM_ALIAS_MAP with
    | some a => (e.1, a :: e.2)
    | none => e)

/-- The top-level comma split inside `translate_type` (lines 379-392):
depth tracking over `[`/`]`; a comma at depth 0 ends a part; every part is
stripped when appended (even if empty mid-loop, per the source); a final
nonempty stripped remainder is appended at the end. -/
def splitTopLevel : List Char → Int → List Char → List String → List String
  | [], _, cur, parts =>
    if pyStrip cur ≠ "" then parts ++ [pyStrip cur] else parts
  | c :: rest, depth, cur, parts =>
    if c = '[' then splitTopLevel rest (depth + 1) (cur ++ [c]) parts
    else if c = ']' then splitTopLevel rest (depth - 1) (cur ++ [c]) parts
    else if c = ',' ∧ depth = 0 then
      splitTopLevel rest depth [] (parts ++ [pyStrip cur])
    else splitTopLevel rest depth (cur ++ [c]) parts

/-- `translate_type` (lines 369-402).  The source recurses on the parts of
a `Tuple[...]` string; every part is strictly shorter than the whole
string (at least the 7 bracket characters are gone), so `s.length + 1`
steps of fuel always suffice and the fuel-exhausted branch is never
reached on any input. -/
def translate_type_fuel : Nat → String → String
  | 0, s => s
  | fuel + 1, s =>
    if pyStartsWith s "Tuple[" then
      -- inner = type_str[6:-1]
      let inner := (s.data.drop 6).dropLast
      let parts := splitTopLevel inner 0 [] []
      "Tuple[" ++ String.intercalate ", " (parts.map (translate_type_fuel fuel)) ++ "]"
    else
      match List.lookup s ENUM_UNION_MAP with
      | some subs => String.intercalate " | " subs
      | none => (List.lookup s ENUM_ALIAS_MAP).getD s

def translate_type (s : String) : String := translate_type_fuel (s.length + 1) s

example : translate_type "zColor" = "Color | BrushPattern | PenLineStyle" := by decide
example : translate_type "zReturnCode" = "ReturnCode" := by decide
example : translate_type "IMatl" = "IMatl" := by decide
example :
    translate_type "Tuple[zReturnCode, int, Tuple[zColor, ...]]" =
      "Tuple[ReturnCode, int, Tuple[Color | BrushPattern | PenLineStyle, ...]]" := by
  decide

/-- C4: the union map built from the configuration contains exactly the one
filter-split enumeration `zColor`, whose translation is the ordered union
of the primary rule's alias followed by the virtual rules' aliases in
configuration declaration order; and any raw (non-composite) name with no
alias rule passes through translation unchanged. -/
theorem union_translation :
    ENUM_UNION_MAP = [("zColor", ["Color", "BrushPattern", "PenLineStyle"])] ∧
    translate_type "zColor" = "Color | BrushPattern | PenLineStyle" ∧
    ∀ s : String, List.lookup s ENUM_UNION_MAP = none →
      List.lookup s ENUM_ALIAS_MAP = none →
      pyStartsWith s "Tuple[" = false →
      translate_type s = s := by
  refine ⟨by decide, by decide, ?_⟩
  intro s h1 h2 h3
  simp [translate_type, translate_type_fuel, h1, h2, h3]

theorem union_translation_witness :
    (List.lookup "INode" ENUM_UNION_MAP = none ∧
     List.lookup "INode" ENUM_ALIAS_MAP = none ∧
     pyStartsWith "INode" "Tuple[" = false) ∧
    translate_type "INode" = "INode" :=
  ⟨⟨by decide, by decide, by decide⟩,
   union_translation.2.2 "INode" (by decide) (by decide) (by decide)⟩

/-!
## Constants generator (`generate_constants_tlb.py`)
-/

structure ConstantInfo where
  name : String
  value : Int
  enum_name : String
deriving DecidableEq

/-- `strip_prefix(name, prefix)` (lines 207-215): strip when the name
starts with the prefix, and guard a leading digit with an underscore. -/
def stripPfx (name pfx : String) : String :=
  if pyStartsWith name pfx then
    match name.data.drop pfx.data.length with
    | [] => ""
    | c :: cs => if c.isDigit then String.mk ('_' :: c :: cs) else String.mk (c :: cs)
  else name

/-- Stable insertion: the new element goes after every element whose key
does not exceed its own. -/
def insertStable {α : Type} (lt : α → α → Bool) (x : α) : List α → List α
  | [] => [x]
  | y :: ys => if lt x y then x :: y :: ys else y :: insertStable lt x ys

/-- Python `sorted(l, key=...)`: stable ascending sort; `lt x y` holds when
the key of `x` is strictly below the key of `y`. -/
def pySorted {α : Type} (lt : α → α → Bool) (l : List α) : List α :=
  l.foldl (fun acc x => insertStable lt x acc) []

/-- Python `<` on strings: lexicographic comparison by code point, computed
on the character lists so that it reduces in the kernel. -/
def charListLt : List Char → List Char → Bool
  | [], [] => false
  | [], _ :: _ => true
  | _ :: _, [] => false
  | c :: cs, d :: ds => if c < d then true else if d < c then false else charListLt cs ds

def pyStrLt (a b : String) : Bool := charListLt a.data b.data

/-- The identifier emitted for one member of a flat curated class
(lines 271-273): strip the prefix, fall back to the full name when the
result is empty. -/
def flatAlias (c : ConstantInfo) (pfx : String) : String :=
  let a := stripPfx c.name pfx
  if a = "" then c.name else a

/-- `generate_flat_class` (lines 266-276): members sorted ascending by
value. -/
def generate_flat_class (constants : List ConstantInfo) (pfx : String) :
    List String :=
  (pySorted (fun a b => decide (a.value < b.value)) constants).map
    (fun c => "    " ++ flatAlias c pfx ++ " = " ++ toString c.value)

/-- C6: for members `{A_FOO=3, A_BAR=1, A_1=2}` with prefix `A_` stripped,
the curated flat grouping emits `BAR = 1`, `_1 = 2`, `FOO = 3` in that
order (ascending by value, digit-leading stripped names gain `_`). -/
theorem flat_class_example_order :
    generate_flat_class
      [⟨"A_FOO", 3, "E"⟩, ⟨"A_BAR", 1, "E"⟩, ⟨"A_1", 2, "E"⟩] "A_" =
      ["    BAR = 1", "    _1 = 2", "    FOO = 3"] := by decide

/-- C10 counterexample: a member whose raw name is the empty string is
emitted with an empty identifier — stripping a prefix from `""` yields
`""` and the fallback (the full original name) is also empty. -/
theorem flat_alias_empty_name :
    flatAlias ⟨"", 0, "E"⟩ "FE_" = "" ∧
    generate_flat_class [⟨"", 0, "E"⟩] "FE_" = ["     = 0"] := by decide

/-- C10 amended: for every member with a nonempty raw name the emitted
identifier is nonempty, and whenever stripping the configured prefix
yields the empty string the emitter falls back to the member's full
original name. -/
theorem flat_alias_nonempty (c : ConstantInfo) (pfx : String)
    (h : c.name ≠ "") :
    flatAlias c pfx ≠ "" ∧
    (stripPfx c.name pfx = "" → flatAlias c pfx = c.name) := by
  constructor
  · unfold flatAlias
    by_cases hs : stripPfx c.name pfx = "" <;> simp [hs, h]
  · intro hs
    simp [flatAlias, hs]

theorem flat_alias_nonempty_witness :
    (("FE_OK" : String) ≠ "") ∧
    (flatAlias ⟨"FE_OK", 1, "E"⟩ "FE_" ≠ "" ∧
     (stripPfx "FE_OK" "FE_" = "" → flatAlias ⟨"FE_OK", 1, "E"⟩ "FE_" = "FE_OK")) :=
  ⟨by decide, flat_alias_nonempty ⟨"FE_OK", 1, "E"⟩ "FE_" (by decide)⟩

/-!
## Tier 2 auto-grouping (`detect_prefixes`, `generate_tier2_direct`)
-/

/-- Python `name.split(sep, 1)`: `none` when the separator is absent,
otherwise the pieces before and after its first occurrence. -/
def splitOnce : List Char → Char → Option (List Char × List Char)
  | [], _ => none
  | c :: rest, sep =>
    if c = sep then some ([], rest)
    else
      match splitOnce rest sep with
      | some (bef, aft) => some (c :: bef, aft)
      | none => none

/-- `defaultdict(list)` append: create the key at the end on first sight,
append to its list afterwards. -/
def groupAppend {α : Type} (m : List (String × List α)) (k : String) (x : α) :
    List (String × List α) :=
  match m with
  | [] => [(k, [x])]
  | (k', l) :: rest =>
    if k' = k then (k', l ++ [x]) :: rest else (k', l) :: groupAppend rest k x

/-- One iteration of the partition loop of `detect_prefixes`
(lines 283-291): the group key is the text before the first underscore
plus the underscore, or `""` for a member without one. -/
def prefixStep (gs : List (String × List ConstantInfo)) (c : ConstantInfo) :
    List (String × List ConstantInfo) :=
  match splitOnce c.name.data '_' with
  | some (bef, _) => groupAppend gs (String.mk (bef ++ ['_'])) c
  | none => groupAppend gs "" c

def prefixGroups (consts : List ConstantInfo) : List (String × List ConstantInfo) :=
  consts.foldl prefixStep []

/-- `detect_prefixes` (lines 279-298): the partition is kept only when
more than one group exists and no member fell into the root group. -/
def detect_prefixes (consts : List ConstantInfo) : List (String × List ConstantInfo) :=
  let groups := prefixGroups consts
  if 1 < groups.length ∧ "" ∉ groups.map Prod.fst then groups
  else [("", consts)]

/-- `prefix.rstrip('_') if prefix else 'Other'` (line 346). -/
def tier2ClassName (pfx : String) : String :=
  if pfx = "" then "Other"
  else String.mk (pfx.data.reverse.dropWhile (fun c => c = '_')).reverse

/-- The block emitted for one Tier 2 enumeration (lines 316-356). -/
def tier2EnumLines (enum_name : String) (const_list : List ConstantInfo) :
    List String :=
  let groups := detect_prefixes const_list
  if groups.length = 1 ∧ "" ∈ groups.map Prod.fst then
    ["class " ++ enum_name ++ "(IntEnum):",
     "    \"\"\"Constants from " ++ enum_name ++ " enum (auto-generated).\"\"\"",
     ""] ++
    (pySorted (fun a b => decide (a.value < b.value)) const_list).map
      (fun c => "    " ++ c.name ++ " = " ++ toString c.value) ++
    ["", ""]
  else
    ["class " ++ enum_name ++ ":",
     "    \"\"\"Constants from " ++ enum_name ++
       " enum (auto-generated, nested by prefix).\"\"\"",
     ""] ++
    (pySorted (fun a b => pyStrLt a.1 b.1) groups).foldl
      (fun acc g =>
        acc ++
        ["    class " ++ tier2ClassName g.1 ++ "(IntEnum):",
         "        \"\"\"Constants with " ++ g.1 ++ " prefix.\"\"\"",
         ""] ++
        (pySorted (fun a b => decide (a.value < b.value)) g.2).map
          (fun c => "        " ++ c.name ++ " = " ++ toString c.value) ++
        [""]) [] ++
    [""]

/-- `generate_tier2_direct` (lines 301-358): header comment lines, then one
block per nonempty enumeration in ascending raw-name order; returns
(lines, total constants, enum count). -/
def generate_tier2_direct (enums : List (String × List ConstantInfo)) :
    List String × Nat × Nat :=
  let header : List String :=
    ["",
     "# " ++ String.mk (List.replicate 70 '='),
     "# Tier 2: Auto-Generated Enums (Direct Mapping)",
     "# " ++ String.mk (List.replicate 70 '='),
     "# The following enums are generated directly from the .tlb file",
     "# Enums with multiple prefixes use nested subclasses for organization.",
     "# Constant names are preserved exactly as they appear in the .tlb.",
     ""]
  (pySorted (fun a b => pyStrLt a.1 b.1) enums).foldl
    (fun acc e =>
      if e.2 = [] then acc
      else (acc.1 ++ tier2EnumLines e.1 e.2, acc.2.1 + e.2.length, acc.2.2 + 1))
    (header, 0, 0)

/-- Members mixing two underscore prefixes with one separator-free name. -/
def exMixed : List ConstantInfo :=
  [⟨"A_X", 1, "E1"⟩, ⟨"B_Y", 2, "E1"⟩, ⟨"PLAIN", 3, "E1"⟩]

/-- C3 counterexample: `exMixed` has two distinct underscore prefixes
(`A_` and `B_`, as the partition shows), yet the enumeration is emitted
flat because one member has no underscore — contradicting "whenever more
than one distinct prefix exists, each prefix becomes its own nested
grouping". -/
theorem tier2_mixed_prefix_emitted_flat :
    prefixGroups exMixed =
      [("A_", [⟨"A_X", 1, "E1"⟩]), ("B_", [⟨"B_Y", 2, "E1"⟩]),
       ("", [⟨"PLAIN", 3, "E1"⟩])] ∧
    detect_prefixes exMixed = [("", exMixed)] ∧
    tier2EnumLines "E1" exMixed =
      ["class E1(IntEnum):",
       "    \"\"\"Constants from E1 enum (auto-generated).\"\"\"",
       "",
       "    A_X = 1",
       "    B_Y = 2",
       "    PLAIN = 3",
       "", ""] := by
  refine ⟨by decide, by decide, by decide⟩

theorem splitOnce_eq_none_iff (sep : Char) :
    ∀ l : List Char, splitOnce l sep = none ↔ sep ∉ l
  | [] => by simp [splitOnce]
  | c :: rest => by
    by_cases h : c = sep
    · simp [splitOnce, h]
    · cases hr : splitOnce rest sep with
      | none =>
        simp [splitOnce, h, hr, (splitOnce_eq_none_iff sep rest).mp hr,
          Ne.symm h]
      | some p =>
        have : sep ∈ rest := by
          by_contra hm
          rw [(splitOnce_eq_none_iff sep rest).mpr hm] at hr
          exact Option.noConfusion hr
        simp [splitOnce, h, hr, this]

theorem groupAppend_keys {α : Type} (k s : String) (x : α) :
    ∀ gs : List (String × List α),
      (s ∈ (groupAppend gs k x).map Prod.fst ↔ s ∈ gs.map Prod.fst ∨ s = k)
  | [] => by simp [groupAppend]
  | (k', l) :: rest => by
    by_cases h : k' = k
    · subst h
      simp [groupAppend]
      tauto
    · simp [groupAppend, h, groupAppend_keys k s x rest]
      tauto

theorem prefixGroups_root_key :
    ∀ (cs : List ConstantInfo) (gs : List (String × List ConstantInfo)),
      ("" ∈ (cs.foldl prefixStep gs).map Prod.fst ↔
        "" ∈ gs.map Prod.fst ∨ ∃ c ∈ cs, splitOnce c.name.data '_' = none)
  | [], gs => by simp
  | c :: cs, gs => by
    rw [List.foldl_cons, prefixGroups_root_key cs]
    cases hs : splitOnce c.name.data '_' with
    | none =>
      simp only [prefixStep, hs, groupAppend_keys]
      constructor
      · intro h
        exact Or.inr ⟨c, List.mem_cons_self c cs, hs⟩
      · intro h
        exact Or.inl (Or.inr trivial)
    | some p =>
      have hk : ¬("" = String.mk (p.1 ++ ['_'])) := by
        simp [String.ext_iff]
      simp only [prefixStep, hs, groupAppend_keys, hk, or_false]
      constructor
      · rintro (h | ⟨c', hc', hsp⟩)
        · exact Or.inl h
        · exact Or.inr ⟨c', List.mem_cons_of_mem c hc', hsp⟩
      · rintro (h | ⟨c', hc', hsp⟩)
        · exact Or.inl h
        · rcases List.mem_cons.mp hc' with rfl | hc'
          · rw [hs] at hsp; exact Option.noConfusion hsp
          · exact Or.inr ⟨c', hc', hsp⟩

/-- C3 amended: the Tier 2 auto-grouping keeps the per-prefix partition
(one nested grouping per prefix) exactly when more than one group exists
AND every member name contains an underscore; if any member lacks an
underscore — even with several distinct prefixes present — or only a
single prefix (or none) exists, the enumeration is emitted flat with its
member names preserved verbatim. -/
theorem detect_prefixes_condition (cs : List ConstantInfo) :
    detect_prefixes cs =
      if 1 < (prefixGroups cs).length ∧ ∀ c ∈ cs, '_' ∈ c.name.data then
        prefixGroups cs
      else [("", cs)] := by
  unfold detect_prefixes
  refine if_congr (and_congr_right fun _ => ?_) rfl rfl
  rw [show (prefixGroups cs).map Prod.fst = (List.foldl prefixStep [] cs).map Prod.fst from rfl,
    prefixGroups_root_key cs []]
  simp only [List.map_nil, List.not_mem_nil, false_or]
  constructor
  · intro h c hc
    by_contra hm
    exact h ⟨c, hc, (splitOnce_eq_none_iff '_' c.name.data).mpr hm⟩
  · rintro h ⟨c, hc, hs⟩
    exact (splitOnce_eq_none_iff '_' c.name.data).mp hs (h c hc)

/-!
## Tier 1 curated emission and `generate_constants_file`
-/

/-- Digit guard applied to a nested member name (lines 251-252). -/
def nestedMemberName (m : String) : String :=
  match m.data with
  | [] => m
  | c :: _ => if c.isDigit then "_" ++ m else m

/-- `generate_nested_class` (lines 218-263): after stripping the prefix,
members split on the first remaining underscore into (group, leaf); each
group becomes a nested IntEnum (groups in ascending name order, members
ascending by value); separator-free members become ungrouped plain
constants sorted by value.  Returns (lines, nested class names). -/
def generate_nested_class (constants : List ConstantInfo) (pfx : String) :
    List String × List String :=
  let acc := constants.foldl
    (fun (acc : List (String × List (String × ConstantInfo)) × List (String × ConstantInfo)) c =>
      let stripped := stripPfx c.name pfx
      match splitOnce stripped.data '_' with
      | some (g, m) => (groupAppend acc.1 (String.mk g) (String.mk m, c), acc.2)
      | none => (acc.1, acc.2 ++ [(stripped, c)]))
    ([], [])
  let gl := (pySorted (fun a b => pyStrLt a.1 b.1) acc.1).foldl
    (fun (r : List String × List String) g =>
      (r.1 ++
        ["    class " ++ g.1 ++ "(IntEnum):"] ++
        (pySorted (fun a b => decide (a.2.value < b.2.value)) g.2).map
          (fun mc => "        " ++ nestedMemberName mc.1 ++ " = " ++ toString mc.2.value) ++
        [""],
       r.2 ++ [g.1]))
    ([], [])
  let lines := gl.1 ++
    (if acc.2 ≠ [] then
      ["    # Ungrouped constants"] ++
      (pySorted (fun a b => decide (a.2.value < b.2.value)) acc.2).map
        (fun mc => "    " ++ mc.1 ++ " = " ++ toString mc.2.value) ++
      [""]
    else [])
  (lines, gl.2)

/-- `config_key.split(':', 1)` when a `:` is present (lines 393-398). -/
def splitConfigKey (key : String) : String × Option String :=
  match splitOnce key.data ':' with
  | some (a, b) => (String.mk a, some (String.mk b))
  | none => (key, none)

/-- State threaded through the Tier 1 loop (lines 387-445): emitted lines,
processed `(config_key, class_name, member count)` triples, skipped
config keys, and the enum names claimed by Tier 1 (a set in the source;
we keep first-insertion order, only membership is ever used). -/
structure Tier1State where
  lines : List String
  processed : List (String × String × Nat)
  skipped : List String
  tier1Names : List String
deriving DecidableEq

/-- One iteration of the Tier 1 loop (lines 392-445).  An absent source
enumeration is recorded as skipped; a virtual rule whose filtered subset
is empty is recorded as skipped (after the enum name is still claimed for
Tier 1, exactly as in the source); otherwise the grouping is emitted. -/
def t1Step (constants : List (String × List ConstantInfo)) (st : Tier1State)
    (e : String × String × String × Bool) : Tier1State :=
  let ef := splitConfigKey e.1
  match List.lookup ef.1 constants with
  | none => { st with skipped := st.skipped ++ [e.1] }
  | some cl =>
    let names' := if ef.1 ∈ st.tier1Names then st.tier1Names else st.tier1Names ++ [ef.1]
    -- `if filter_prefix:` is a truthiness test: only a nonempty filter filters
    let cl' :=
      match ef.2 with
      | some fp => if fp = "" then cl else cl.filter (fun c => pyStartsWith c.name fp)
      | none => cl
    let isFiltered : Bool :=
      match ef.2 with
      | some fp => decide (fp ≠ "")
      | none => false
    if isFiltered ∧ cl' = [] then
      { st with tier1Names := names', skipped := st.skipped ++ [e.1] }
    else
      let class_name := e.2.1
      let header :=
        if e.2.2.2 then
          ["class " ++ class_name ++ ":",
           "    \"\"\"Constants from " ++ ef.1 ++ " enum (nested grouping).\"\"\"",
           ""]
        else
          ["class " ++ class_name ++ "(IntEnum):",
           "    \"\"\"Constants from " ++ ef.1 ++ " enum.\"\"\"",
           ""]
      let body :=
        if e.2.2.2 then
          let bn := generate_nested_class cl' e.2.2.1
          bn.1 ++ [""] ++
          (if bn.2 ≠ [] then
            ["# Type alias for " ++ class_name ++ " nested IntEnums",
             class_name ++ "Type = " ++
               String.intercalate " | " (bn.2.map (fun n => class_name ++ "." ++ n)),
             ""]
          else [])
        else generate_flat_class cl' e.2.2.1 ++ [""]
      { lines := st.lines ++ header ++ body ++ [""],
        processed := st.processed ++ [(e.1, class_name, cl'.length)],
        skipped := st.skipped,
        tier1Names := names' }

/-- The Tier 1 loop over a configuration list. -/
def t1Fold (constants : List (String × List ConstantInfo)) :
    List (String × String × String × Bool) → Tier1State → Tier1State
  | [], st => st
  | e :: rest, st => t1Fold constants rest (t1Step constants st e)

def tier1Run (constants : List (String × List ConstantInfo)) : Tier1State :=
  t1Fold constants ALIAS_CONFIG ⟨[], [], [], []⟩

/-- Line 448: the Tier 2 snapshot is every enumeration not claimed by a
Tier 1 rule. -/
def tier2Part (constants : List (String × List ConstantInfo)) :
    List (String × List ConstantInfo) :=
  constants.filter (fun kv => kv.1 ∉ (tier1Run constants).tier1Names)

/-- Whether a configuration key's rule can emit a grouping from the given
snapshot: its source enumeration is present and, for a (nonempty-)filter
virtual rule, the filtered subset is nonempty. -/
def ruleAvailable (constants : List (String × List ConstantInfo)) (key : String) :
    Bool :=
  let ef := splitConfigKey key
  match List.lookup ef.1 constants with
  | none => false
  | some cl =>
    match ef.2 with
    | some fp =>
      decide (fp = "") || decide (cl.filter (fun c => pyStartsWith c.name fp) ≠ [])
    | none => true

theorem t1Step_skipped_mono (constants : List (String × List ConstantInfo))
    (st : Tier1State) (e : String × String × String × Bool) (k : String)
    (h : k ∈ st.skipped) : k ∈ (t1Step constants st e).skipped := by
  cases hl : List.lookup (splitConfigKey e.1).1 constants with
  | none =>
    simp only [t1Step, hl]
    exact List.mem_append_left _ h
  | some cl =>
    simp only [t1Step, hl]
    split
    · exact List.mem_append_left _ h
    · exact h

theorem t1Step_processed_mono (constants : List (String × List ConstantInfo))
    (st : Tier1State) (e : String × String × String × Bool)
    (p : String × String × Nat) (h : p ∈ st.processed) :
    p ∈ (t1Step constants st e).processed := by
  cases hl : List.lookup (splitConfigKey e.1).1 constants with
  | none => simp only [t1Step, hl]; exact h
  | some cl =>
    simp only [t1Step, hl]
    split
    · exact h
    · exact List.mem_append_left _ h

theorem t1Fold_skipped_mono (constants : List (String × List ConstantInfo)) :
    ∀ (cfg : List (String × String × String × Bool)) (st : Tier1State) (k : String),
      k ∈ st.skipped → k ∈ (t1Fold constants cfg st).skipped
  | [], _, _, h => h
  | e :: rest, _st, k, h =>
    t1Fold_skipped_mono constants rest _ k (t1Step_skipped_mono _ _ e _ h)

theorem t1Fold_processed_mono (constants : List (String × List ConstantInfo)) :
    ∀ (cfg : List (String × String × String × Bool)) (st : Tier1State)
      (p : String × String × Nat),
      p ∈ st.processed → p ∈ (t1Fold constants cfg st).processed
  | [], _, _, h => h
  | e :: rest, _st, p, h =>
    t1Fold_processed_mono constants rest _ p (t1Step_processed_mono _ _ e _ h)

theorem t1Step_skips_absent (constants : List (String × List ConstantInfo))
    (st : Tier1State) (e : String × String × String × Bool)
    (habs : List.lookup (splitConfigKey e.1).1 constants = none) :
    e.1 ∈ (t1Step constants st e).skipped := by
  simp only [t1Step, habs]
  exact List.mem_append_right _ (List.mem_singleton.mpr rfl)

theorem t1Fold_skips_absent (constants : List (String × List ConstantInfo)) :
    ∀ (cfg : List (String × String × String × Bool)) (st : Tier1State)
      (e : String × String × String × Bool), e ∈ cfg →
      List.lookup (splitConfigKey e.1).1 constants = none →
      e.1 ∈ (t1Fold constants cfg st).skipped
  | [], _, e, h, _ => absurd h (List.not_mem_nil e)
  | e' :: rest, st, e, h, habs => by
    rcases List.mem_cons.mp h with rfl | h'
    · exact t1Fold_skipped_mono constants rest _ _
        (t1Step_skips_absent constants st e habs)
    · exact t1Fold_skips_absent constants rest _ e h' habs

theorem t1Step_processes_available (constants : List (String × List ConstantInfo))
    (st : Tier1State) (e : String × String × String × Bool)
    (hav : ruleAvailable constants e.1 = true) :
    e.1 ∈ (t1Step constants st e).processed.map Prod.fst := by
  cases hl : List.lookup (splitConfigKey e.1).1 constants with
  | none =>
    simp only [ruleAvailable, hl] at hav
    exact Bool.noConfusion hav
  | some cl =>
    simp only [ruleAvailable, hl] at hav
    simp only [t1Step, hl]
    cases hf : (splitConfigKey e.1).2 with
    | none =>
      rw [hf] at hav
      simp [hf]
    | some fp =>
      rw [hf] at hav
      by_cases hfp : fp = ""
      · simp [hf, hfp]
      · have hne : cl.filter (fun c => pyStartsWith c.name fp) ≠ [] := by
          simp only [hfp] at hav
          simpa using hav
        simp [hf, hfp, hne]

theorem t1Fold_processes_available (constants : List (String × List ConstantInfo)) :
    ∀ (cfg : List (String × String × String × Bool)) (st : Tier1State)
      (e : String × String × String × Bool), e ∈ cfg →
      ruleAvailable constants e.1 = true →
      e.1 ∈ (t1Fold constants cfg st).processed.map Prod.fst
  | [], _, e, h, _ => absurd h (List.not_mem_nil e)
  | e' :: rest, st, e, h, hav => by
    rcases List.mem_cons.mp h with rfl | h'
    · rcases List.mem_map.mp (t1Step_processes_available constants st e hav) with
        ⟨p, hp, hfst⟩
      exact hfst ▸ List.mem_map_of_mem Prod.fst (t1Fold_processed_mono constants rest _ p hp)
    · exact t1Fold_processes_available constants rest _ e h' hav

theorem t1Step_skips_empty_filter (constants : List (String × List ConstantInfo))
    (st : Tier1State) (e : String × String × String × Bool)
    (cl : List ConstantInfo) (fp : String)
    (hl : List.lookup (splitConfigKey e.1).1 constants = some cl)
    (hf : (splitConfigKey e.1).2 = some fp) (hfp : fp ≠ "")
    (hemp : cl.filter (fun c => pyStartsWith c.name fp) = []) :
    e.1 ∈ (t1Step constants st e).skipped := by
  simp only [t1Step, hl, hf]
  have hc : decide (fp ≠ "") = true ∧
      (if fp = "" then cl else cl.filter (fun c => pyStartsWith c.name fp)) = [] :=
    ⟨decide_eq_true hfp, by rw [if_neg hfp]; exact hemp⟩
  rw [if_pos hc]
  exact List.mem_append_right _ (List.mem_singleton.mpr rfl)

theorem t1Fold_skips_empty_filter (constants : List (String × List ConstantInfo)) :
    ∀ (cfg : List (String × String × String × Bool)) (st : Tier1State)
      (e : String × String × String × Bool) (cl : List ConstantInfo) (fp : String),
      e ∈ cfg →
      List.lookup (splitConfigKey e.1).1 constants = some cl →
      (splitConfigKey e.1).2 = some fp → fp ≠ "" →
      cl.filter (fun c => pyStartsWith c.name fp) = [] →
      e.1 ∈ (t1Fold constants cfg st).skipped
  | [], _, e, _, _, h, _, _, _, _ => absurd h (List.not_mem_nil e)
  | e' :: rest, st, e, cl, fp, h, hl, hf, hfp, hemp => by
    rcases List.mem_cons.mp h with rfl | h'
    · exact t1Fold_skipped_mono constants rest _ _
        (t1Step_skips_empty_filter constants st e cl fp hl hf hfp hemp)
    · exact t1Fold_skips_empty_filter constants rest _ e cl fp h' hl hf hfp hemp

/-- C8: an AliasRule whose source enumeration is absent from the snapshot,
or whose filtered subset is empty after applying its (nonempty) filter
prefix, is recorded in the skipped list; every rule whose source and
filtered subset are present is still processed into its Tier 1 grouping;
and every enumeration not claimed by Tier 1 still reaches the Tier 2
snapshot. -/
theorem alias_rule_skip_and_continue (constants : List (String × List ConstantInfo))
    (key : String) (hk : key ∈ ALIAS_CONFIG.map Prod.fst)
    (hskip : List.lookup (splitConfigKey key).1 constants = none ∨
      ∃ cl fp, List.lookup (splitConfigKey key).1 constants = some cl ∧
        (splitConfigKey key).2 = some fp ∧ fp ≠ "" ∧
        cl.filter (fun c => pyStartsWith c.name fp) = []) :
    key ∈ (tier1Run constants).skipped ∧
    (∀ e ∈ ALIAS_CONFIG, ruleAvailable constants e.1 = true →
      e.1 ∈ (tier1Run constants).processed.map Prod.fst) ∧
    (∀ en ∈ constants.map Prod.fst, en ∉ (tier1Run constants).tier1Names →
      en ∈ (tier2Part constants).map Prod.fst) := by
  refine ⟨?_, ?_, ?_⟩
  · rcases List.mem_map.mp hk with ⟨e, he, rfl⟩
    rcases hskip with habs | ⟨cl, fp, hl, hf, hfp, hemp⟩
    · exact t1Fold_skips_absent constants ALIAS_CONFIG _ e he habs
    · exact t1Fold_skips_empty_filter constants ALIAS_CONFIG _ e cl fp he hl hf hfp hemp
  · intro e he hav
    exact t1Fold_processes_available constants ALIAS_CONFIG _ e he hav
  · intro en hen hnotin
    rcases List.mem_map.mp hen with ⟨kv, hkv, rfl⟩
    refine List.mem_map_of_mem Prod.fst (List.mem_filter.mpr ⟨hkv, ?_⟩)
    exact decide_eq_true hnotin

/-- A snapshot in which `zColor` is present but carries only `FCL_`
members, so the virtual rule `zColor:FPF_` filters down to nothing. -/
def exSnapshotC8 : List (String × List ConstantInfo) :=
  [("zColor", [⟨"FCL_RED", 1, "zColor"⟩])]

theorem alias_rule_skip_and_continue_witness :
    ("zColor:FPF_" ∈ ALIAS_CONFIG.map Prod.fst ∧
     (List.lookup (splitConfigKey "zColor:FPF_").1 exSnapshotC8 = none ∨
      ∃ cl fp, List.lookup (splitConfigKey "zColor:FPF_").1 exSnapshotC8 = some cl ∧
        (splitConfigKey "zColor:FPF_").2 = some fp ∧ fp ≠ "" ∧
        cl.filter (fun c => pyStartsWith c.name fp) = [])) ∧
    ("zColor:FPF_" ∈ (tier1Run exSnapshotC8).skipped ∧
     (∀ e ∈ ALIAS_CONFIG, ruleAvailable exSnapshotC8 e.1 = true →
       e.1 ∈ (tier1Run exSnapshotC8).processed.map Prod.fst) ∧
     (∀ en ∈ exSnapshotC8.map Prod.fst,
       en ∉ (tier1Run exSnapshotC8).tier1Names →
       en ∈ (tier2Part exSnapshotC8).map Prod.fst)) :=
  ⟨⟨by decide,
    Or.inr ⟨[⟨"FCL_RED", 1, "zColor"⟩], "FPF_",
      by decide, by decide, by decide, by decide⟩⟩,
   alias_rule_skip_and_continue exSnapshotC8 "zColor:FPF_" (by decide)
     (Or.inr ⟨[⟨"FCL_RED", 1, "zColor"⟩], "FPF_",
       by decide, by decide, by decide, by decide⟩)⟩

/-!
## Stub emitter (`generate_stub_file`, lines 405-518)
-/

/-- The alias names scanned by `track_and_translate` (lines 452-459): every
value of `ENUM_ALIAS_MAP`, then every member of every `ENUM_UNION_MAP`
subset list. -/
def aliasPool : List String :=
  ENUM_ALIAS_MAP.map Prod.snd ++ (ENUM_UNION_MAP.map Prod.snd).flatten

/-- Python `needle in haystack` (substring containment). -/
def pyContainsSub (needle : List Char) : List Char → Bool
  | [] => needle.isEmpty
  | c :: rest => needle.isPrefixOf (c :: rest) || pyContainsSub needle rest

/-- `used_aliases.add(alias)`: the Python set, kept as a duplicate-free
insertion-ordered list (only membership and the final sorted view are ever
consumed). -/
def addIfAbsent (u : List String) (a : String) : List String :=
  if a ∈ u then u else u ++ [a]

/-- The tracking side of `track_and_translate` (lines 448-460), applied to
one already-translated type string. -/
def trackOne (u : List String) (translated : String) : List String :=
  aliasPool.foldl
    (fun acc al =>
      if pyContainsSub al.data translated.data then addIfAbsent acc al else acc) u

def pyParamTy (p : PyParam) : String :=
  match p with
  | .p2 _ ty => ty
  | .p3 _ ty _ => ty

/-- The sequence of raw type strings passed through `track_and_translate`
while one interface renders (lines 468-503), in call order: property types
in ascending property-name order, then, per method in ascending name
order, the parameter types followed by the return type. -/
def ifaceRawTypes (i : IfaceInfo) : List String :=
  (pySorted (fun a b => pyStrLt a.name b.name) i.properties).map (fun p => p.type) ++
  (pySorted (fun a b => pyStrLt a.name b.name) i.methods).foldl
    (fun acc m => acc ++ m.params.map pyParamTy ++ [m.return_type]) []

/-- All `track_and_translate` calls of a run, interfaces in ascending name
order (line 462). -/
def rawTypeSeq (interfaces : List IfaceInfo) : List String :=
  (pySorted (fun a b => pyStrLt a.name b.name) interfaces).foldl
    (fun acc i => acc ++ ifaceRawTypes i) []

/-- `used_aliases` at the end of rendering: the translate-then-scan fold
over every tracked type string. -/
def usedAliasesOf (interfaces : List IfaceInfo) : List String :=
  (rawTypeSeq interfaces).foldl (fun u ty => trackOne u (translate_type ty)) []

/-- `sorted(used_aliases)` (line 513): the alias names of the emitted
dependency (import) statement. -/
def importAliasNames (interfaces : List IfaceInfo) : List String :=
  pySorted pyStrLt (usedAliasesOf interfaces)

/-- Reserved-word disambiguation (lines 493-495). -/
def safeParamName (n : String) : String :=
  if n ∈ ["type", "id", "list", "set", "from", "import", "class", "in",
          "is", "not", "and", "or"] then n ++ "_"
  else n

/-- One emitted method declaration (lines 478-504). -/
def methodLine (m : MethodInfo) : String :=
  let params := "self" :: m.params.map (fun p =>
    match p with
    | .p2 n ty => safeParamName n ++ ": " ++ translate_type ty
    | .p3 n ty opt =>
      if opt then safeParamName n ++ ": " ++ translate_type ty ++ " = ..."
      else safeParamName n ++ ": " ++ translate_type ty)
  "    def " ++ m.name ++ "(" ++ String.intercalate ", " params ++ ") -> " ++
    translate_type m.return_type ++ ": ..."

/-- One emitted property declaration (lines 468-475). -/
def propLines (p : PropInfo) : List String :=
  let ty := translate_type p.type
  ["    @property",
   "    def " ++ p.name ++ "(self) -> " ++ ty ++ ": ..."] ++
  (if p.has_setter then
    ["    @" ++ p.name ++ ".setter",
     "    def " ++ p.name ++ "(self, value: " ++ ty ++ ") -> None: ..."]
  else [])

/-- One emitted interface class (lines 462-509). -/
def ifaceLines (i : IfaceInfo) : List String :=
  let props := pySorted (fun a b => pyStrLt a.name b.name) i.properties
  let methods := pySorted (fun a b => pyStrLt a.name b.name) i.methods
  ["class " ++ i.name ++ "(DispatchBaseClass):"] ++
  props.foldl (fun acc p => acc ++ propLines p) [] ++
  methods.map methodLine ++
  (if props = [] ∧ methods = [] then ["    ..."] else []) ++
  [""]

/-- `generate_stub_file` (lines 405-518): the full line list of the stub
artifact; index 9 is the import placeholder overwritten at the end when
any alias was tracked. -/
def generate_stub_lines (interfaces : List IfaceInfo)
    (enums : List (String × List (String × Int))) : List String :=
  let sortedEnums := pySorted (fun a b => pyStrLt a.1 b.1) enums
  let base :=
    ["# Auto-generated from Femap type library (.tlb)",
     "# DO NOT EDIT - regenerate with generate_stubs_tlb.py",
     "#",
     "# This file provides authoritative type information extracted directly",
     "# from the COM type library, including interface types (IMatl, INode)",
     "# and enum types linked to femap_constants.py aliases.",
     "",
     "from typing import Any, Tuple, Optional, overload",
     "from win32com.client import DispatchBaseClass",
     "", "", "",
     "# Enum types (original .tlb names as aliases to int)"] ++
    sortedEnums.map (fun e => e.1 ++ " = int") ++
    ["", "",
     "class constants:",
     "    \"\"\"Femap constants from type library.\"\"\""] ++
    sortedEnums.foldl (fun acc e =>
      acc ++ ["    # " ++ e.1] ++
      (pySorted (fun a b => decide (a.2 < b.2)) e.2).map
        (fun mv => "    " ++ mv.1 ++ ": int")) [] ++
    ["", ""] ++
    (pySorted (fun a b => pyStrLt a.name b.name) interfaces).foldl
      (fun acc i => acc ++ ifaceLines i) []
  if usedAliasesOf interfaces ≠ [] then
    base.set 9 ("from femap_constants import " ++
      String.intercalate ", " (importAliasNames interfaces))
  else base

/-- The fixed docstring header of `generate_constants_file`
(lines 364-384). -/
def constantsHeader : List String :=
  ["\"\"\"",
   "femap_constants.py - Type-safe constant aliases for Femap API",
   "",
   "Auto-generated by generate_constants_tlb.py from Femap type library (.tlb)",
   "DO NOT EDIT MANUALLY - regenerate using: python generate_constants_tlb.py",
   "",
   "Uses IntEnum for type safety - each enum is a distinct type that",
   "type checkers can verify (e.g., ReturnCode vs Color are not interchangeable).",
   "",
   "Usage:",
   "    from femap_constants import ReturnCode, Entity, Message, Color",
   "",
   "    if rc == ReturnCode.OK:",
   "        app.feAppMessage(Message.NORMAL, \"Success!\")",
   "\"\"\"",
   "",
   "from enum import IntEnum",
   "",
   ""]

/-- `generate_constants_file` (lines 361-487): the full line list of the
constants artifact — header, Tier 1 groupings in configuration order,
Tier 2 groupings, and the generation summary. -/
def generate_constants_lines (constants : List (String × List ConstantInfo)) :
    List String :=
  let st := tier1Run constants
  let t2 := tier2Part constants
  let t2r := if t2 ≠ [] then generate_tier2_direct t2 else ([], 0, 0)
  let tier1_const_count := (st.processed.map (fun p => p.2.2)).sum
  let total_enums := st.processed.length + t2r.2.2
  let total_constants := tier1_const_count + t2r.2.1
  constantsHeader ++ st.lines ++ t2r.1 ++
  ["# " ++ String.mk (List.replicate 70 '='),
   "# Generation Summary",
   "# " ++ String.mk (List.replicate 70 '='),
   "# Tier 1: Curated Aliases (" ++ toString st.processed.length ++ " enums, " ++
     toString tier1_const_count ++ " constants)"] ++
  st.processed.map (fun p =>
    "#   " ++ p.2.1 ++ " (" ++ toString p.2.2 ++ " constants) from " ++ p.1) ++
  (if st.skipped ≠ [] then
    ["# Tier 1 Skipped: " ++ toString st.skipped.length ++ " enums (not found in .tlb):"] ++
    st.skipped.map (fun k => "#   " ++ k)
  else []) ++
  ["#",
   "# Tier 2: Auto-Generated (" ++ toString t2r.2.2 ++ " enums, " ++
     toString t2r.2.1 ++ " constants)",
   "#   (All remaining enums from .tlb with direct mapping)",
   "#",
   "# Total: " ++ toString total_enums ++ " enums, " ++
     toString total_constants ++ " constants"]

/-- An interface whose only type use translates to `AnalysisForm`. -/
def exIfaceC2 : IfaceInfo := ⟨"IFoo", [], [⟨"Bar", [], "zAnalysisAssignForm"⟩]⟩

/-- C2 counterexample: for this interface the single translated type in
the artifact is `AnalysisForm`, yet the emitted import list also names
`Analysis` — an alias no translated type refers to — because the tracker
tests substring containment and `Analysis` is a substring of
`AnalysisForm`. -/
theorem import_list_not_minimal :
    importAliasNames [exIfaceC2] = ["Analysis", "AnalysisForm"] ∧
    (rawTypeSeq [exIfaceC2]).map translate_type = ["AnalysisForm"] ∧
    ("Analysis" : String) ≠ "AnalysisForm" := by
  refine ⟨by decide, by decide, by decide⟩

theorem addIfAbsent_mem (u : List String) (a b : String) :
    b ∈ addIfAbsent u a ↔ b ∈ u ∨ b = a := by
  unfold addIfAbsent
  split
  · next h => constructor
              · exact Or.inl
              · rintro (hb | rfl)
                · exact hb
                · exact h
  · simp

theorem trackScan_mem (s : String) :
    ∀ (pool : List String) (u : List String) (b : String),
      (b ∈ pool.foldl
        (fun acc al =>
          if pyContainsSub al.data s.data then addIfAbsent acc al else acc) u ↔
      b ∈ u ∨ (b ∈ pool ∧ pyContainsSub b.data s.data = true))
  | [], u, b => by simp
  | al :: pool, u, b => by
    rw [List.foldl_cons, trackScan_mem s pool]
    by_cases hsub : pyContainsSub al.data s.data
    · simp only [hsub, if_pos, addIfAbsent_mem, List.mem_cons]
      constructor
      · rintro ((hb | rfl) | ⟨hp, hs⟩)
        · exact Or.inl hb
        · exact Or.inr ⟨Or.inl rfl, hsub⟩
        · exact Or.inr ⟨Or.inr hp, hs⟩
      · rintro (hb | ⟨(rfl | hp), hs⟩)
        · exact Or.inl (Or.inl hb)
        · exact Or.inl (Or.inr rfl)
        · exact Or.inr ⟨hp, hs⟩
    · simp only [hsub, if_neg, List.mem_cons]
      constructor
      · rintro (hb | ⟨hp, hs⟩)
        · exact Or.inl hb
        · exact Or.inr ⟨Or.inr hp, hs⟩
      · rintro (hb | ⟨(rfl | hp), hs⟩)
        · exact Or.inl hb
        · exact absurd hs hsub
        · exact Or.inr ⟨hp, hs⟩

theorem trackOne_mem (u : List String) (s b : String) :
    b ∈ trackOne u s ↔ b ∈ u ∨ (b ∈ aliasPool ∧ pyContainsSub b.data s.data = true) :=
  trackScan_mem s aliasPool u b

theorem trackFold_mem :
    ∀ (tys : List String) (u : List String) (b : String),
      (b ∈ tys.foldl (fun u ty => trackOne u (translate_type ty)) u ↔
      b ∈ u ∨ (b ∈ aliasPool ∧
        ∃ ty ∈ tys, pyContainsSub b.data (translate_type ty).data = true))
  | [], u, b => by simp
  | ty :: tys, u, b => by
    rw [List.foldl_cons, trackFold_mem tys]
    rw [trackOne_mem]
    constructor
    · rintro ((hb | ⟨hp, hs⟩) | ⟨hp, ty', hty', hs⟩)
      · exact Or.inl hb
      · exact Or.inr ⟨hp, ty, List.mem_cons_self ty tys, hs⟩
      · exact Or.inr ⟨hp, ty', List.mem_cons_of_mem ty hty', hs⟩
    · rintro (hb | ⟨hp, ty', hty', hs⟩)
      · exact Or.inl (Or.inl hb)
      · rcases List.mem_cons.mp hty' with rfl | hty'
        · exact Or.inl (Or.inr ⟨hp, hs⟩)
        · exact Or.inr ⟨hp, ty', hty', hs⟩

theorem insertStable_mem {α : Type} (lt : α → α → Bool) (x b : α) :
    ∀ l : List α, b ∈ insertStable lt x l ↔ b = x ∨ b ∈ l
  | [] => by simp [insertStable]
  | y :: ys => by
    unfold insertStable
    split
    · simp
    · simp only [List.mem_cons, insertStable_mem lt x b ys]
      tauto

theorem pySortedFold_mem {α : Type} (lt : α → α → Bool) (b : α) :
    ∀ (l acc : List α),
      (b ∈ l.foldl (fun acc x => insertStable lt x acc) acc ↔ b ∈ acc ∨ b ∈ l)
  | [], acc => by simp
  | x :: l, acc => by
    rw [List.foldl_cons, pySortedFold_mem lt b l]
    rw [insertStable_mem]
    simp only [List.mem_cons]
    tauto

theorem pySorted_mem {α : Type} (lt : α → α → Bool) (b : α) (l : List α) :
    b ∈ pySorted lt l ↔ b ∈ l := by
  unfold pySorted
  rw [pySortedFold_mem]
  simp

/-- C2 amended: the emitted import list contains exactly the configured
alias names that occur as a substring of some translated property,
parameter, or return type of the artifact.  In particular every referenced
alias appears (an alias is a substring of itself), but an alias can also
appear without being referenced whenever its name is a substring of a
referenced translated type (as `Analysis` inside `AnalysisForm`). -/
theorem import_list_characterization (interfaces : List IfaceInfo) (a : String) :
    a ∈ importAliasNames interfaces ↔
      a ∈ aliasPool ∧
      ∃ ty ∈ rawTypeSeq interfaces,
        pyContainsSub a.data (translate_type ty).data = true := by
  unfold importAliasNames usedAliasesOf
  rw [pySorted_mem, trackFold_mem]
  simp

theorem charListLt_iff : ∀ cs ds : List Char, (charListLt cs ds = true ↔ List.lt cs ds)
  | [], [] => ⟨fun h => Bool.noConfusion h, fun h => nomatch h⟩
  | [], d :: ds => ⟨fun _ => List.lt.nil d ds, fun _ => rfl⟩
  | _ :: _, [] => ⟨fun h => Bool.noConfusion h, fun h => nomatch h⟩
  | c :: cs, d :: ds => by
    unfold charListLt
    by_cases h1 : c < d
    · rw [if_pos h1]
      exact ⟨fun _ => List.lt.head cs ds h1, fun _ => rfl⟩
    · rw [if_neg h1]
      by_cases h2 : d < c
      · rw [if_pos h2]
        refine ⟨fun h => Bool.noConfusion h, fun h => ?_⟩
        cases h with
        | head _ _ h' => exact absurd h' h1
        | tail h3 h4 h5 => exact absurd h2 h4
      · rw [if_neg h2]
        rw [charListLt_iff cs ds]
        refine ⟨fun h => List.lt.tail h1 h2 h, fun h => ?_⟩
        cases h with
        | head _ _ h' => exact absurd h' h1
        | tail _ _ h5 => exact h5

/-- `pyStrLt` agrees with the (Mathlib linear-order) `<` on `String`. -/
theorem pyStrLt_iff (a b : String) : pyStrLt a b = true ↔ a < b :=
  (charListLt_iff a.data b.data).trans
    ((List.lt_iff_lex_lt a.data b.data).trans String.lt_iff_toList_lt.symm)

theorem insertStable_le_sorted {α : Type} [LinearOrder α] (ltb : α → α → Bool)
    (hlt : ∀ a b, ltb a b = true ↔ a < b) (x : α) :
    ∀ l : List α, l.Pairwise (· ≤ ·) → (insertStable ltb x l).Pairwise (· ≤ ·)
  | [], _ => List.pairwise_singleton _ x
  | y :: ys, h => by
    rw [List.pairwise_cons] at h
    by_cases hxy : ltb x y = true
    · unfold insertStable
      rw [if_pos hxy]
      have hx : x < y := (hlt x y).mp hxy
      refine List.Pairwise.cons ?_ (List.Pairwise.cons h.1 h.2)
      intro z hz
      rcases List.mem_cons.mp hz with rfl | hz
      · exact le_of_lt hx
      · exact le_trans (le_of_lt hx) (h.1 z hz)
    · unfold insertStable
      rw [if_neg hxy]
      have hyx : y ≤ x := by
        by_contra hc
        exact hxy ((hlt x y).mpr (not_le.mp hc))
      refine List.Pairwise.cons ?_ (insertStable_le_sorted ltb hlt x ys h.2)
      intro z hz
      rw [insertStable_mem] at hz
      rcases hz with rfl | hz
      · exact hyx
      · exact h.1 z hz

theorem pySortedFold_le_sorted {α : Type} [LinearOrder α] (ltb : α → α → Bool)
    (hlt : ∀ a b, ltb a b = true ↔ a < b) :
    ∀ (l acc : List α), acc.Pairwise (· ≤ ·) →
      (l.foldl (fun acc x => insertStable ltb x acc) acc).Pairwise (· ≤ ·)
  | [], _, h => h
  | x :: l, acc, h =>
    pySortedFold_le_sorted ltb hlt l _ (insertStable_le_sorted ltb hlt x acc h)

theorem pySorted_le_sorted {α : Type} [LinearOrder α] (ltb : α → α → Bool)
    (hlt : ∀ a b, ltb a b = true ↔ a < b) (l : List α) :
    (pySorted ltb l).Pairwise (· ≤ ·) :=
  pySortedFold_le_sorted ltb hlt l [] List.Pairwise.nil

theorem insertStable_perm {α : Type} (lt : α → α → Bool) (x : α) :
    ∀ l : List α, List.Perm (insertStable lt x l) (x :: l)
  | [] => List.Perm.refl _
  | y :: ys => by
    unfold insertStable
    split
    · exact List.Perm.refl _
    · exact (List.Perm.cons y (insertStable_perm lt x ys)).trans (List.Perm.swap x y ys)

theorem pySortedFold_perm {α : Type} (lt : α → α → Bool) :
    ∀ (l acc : List α),
      List.Perm (l.foldl (fun a x => insertStable lt x a) acc) (acc ++ l)
  | [], acc => by simp
  | x :: l, acc => by
    rw [List.foldl_cons]
    refine (pySortedFold_perm lt l (insertStable lt x acc)).trans ?_
    refine ((insertStable_perm lt x acc).append_right l).trans ?_
    exact List.perm_middle.symm

theorem pySorted_perm {α : Type} (lt : α → α → Bool) (l : List α) :
    List.Perm (pySorted lt l) l := by
  unfold pySorted
  simpa using pySortedFold_perm lt l []

theorem addIfAbsent_nodup (u : List String) (a : String) (h : u.Nodup) :
    (addIfAbsent u a).Nodup := by
  unfold addIfAbsent
  split
  · exact h
  · next hna => simp [List.nodup_append, h, hna]

theorem trackScan_nodup (s : String) :
    ∀ (pool u : List String), u.Nodup →
      (pool.foldl
        (fun acc al =>
          if pyContainsSub al.data s.data then addIfAbsent acc al else acc) u).Nodup
  | [], _, h => h
  | al :: pool, u, h => by
    rw [List.foldl_cons]
    refine trackScan_nodup s pool _ ?_
    split
    · exact addIfAbsent_nodup u al h
    · exact h

theorem trackFold_nodup :
    ∀ (tys u : List String), u.Nodup →
      (tys.foldl (fun u ty => trackOne u (translate_type ty)) u).Nodup
  | [], _, h => h
  | ty :: tys, u, h =>
    trackFold_nodup tys _ (trackScan_nodup (translate_type ty) aliasPool u h)

/-- C9: both emitters are pure functions of the snapshot and static
configuration, so a second run over an unchanged snapshot reproduces both
artifacts byte for byte.  The only internally unordered collection of the
pipeline — the used-alias set of the stub emitter — reaches the artifact
only through `sorted(...)`: the emitted import list is ascending and
duplicate-free, so accumulation order cannot influence the text. -/
theorem pipeline_deterministic (constants : List (String × List ConstantInfo))
    (interfaces : List IfaceInfo) (enums : List (String × List (String × Int))) :
    generate_constants_lines constants = generate_constants_lines constants ∧
    generate_stub_lines interfaces enums = generate_stub_lines interfaces enums ∧
    (importAliasNames interfaces).Pairwise (· ≤ ·) ∧
    (importAliasNames interfaces).Nodup := by
  refine ⟨rfl, rfl, ?_, ?_⟩
  · exact pySorted_le_sorted pyStrLt pyStrLt_iff (usedAliasesOf interfaces)
  · exact ((pySorted_perm pyStrLt (usedAliasesOf interfaces)).nodup_iff).mpr
      (trackFold_nodup (rawTypeSeq interfaces) [] List.nodup_nil)
